import Mathlib

/-!
Verification of the signalwire conversational-agent runtime contract.

The repository's example agents exercise an SDK runtime: argument
validation, the expression resolver for DataMap templates, the DataMap
webhook engine, the function-result builder, and the multi-agent path
router. The runtime itself ships outside this repository, so those
components are modelled here from the specification document; the
example-level tool handlers (the FAQ lookup and the billing balance
check) are translated directly from the example sources.
-/

namespace Signalwire

/-- JSON-like values: the argument, call-context and webhook-response
data that flows through the runtime. -/
inductive Value where
  | str (s : String)
  | num (n : Int)
  | bool (b : Bool)
  | null
  | list (l : List Value)
  | obj (kvs : List (String × Value))

/-- Lookup of a key in an object's key/value list (first match wins). -/
def objLookup (kvs : List (String × Value)) (k : String) : Option Value :=
  match kvs.find? (fun p => p.1 == k) with
  | some p => some p.2
  | none => none

/-- Python-style dictionary get on a value: `none` when the value is
not an object or the key is absent. -/
def valueGet (v : Value) (k : String) : Option Value :=
  match v with
  | Value.obj kvs => objLookup kvs k
  | _ => none

/-- Modelled from the spec: the string conversion used when a resolved
placeholder value is substituted into a template (scalars convert as in
Python; containers are out of the spec's scope and convert to ""). -/
def valueToString : Value → String
  | Value.str s => s
  | Value.num n => toString n
  | Value.bool b => if b then "True" else "False"
  | Value.null => "None"
  | Value.list _ => ""
  | Value.obj _ => ""

/-- One step of a placeholder path: a mapping key or a sequence index. -/
inductive PathStep where
  | key (k : String)
  | idx (i : Nat)
deriving DecidableEq

/-- Modelled from the spec: walking a value along a path. A missing
mapping key, an out-of-range index, or an index step into a
non-sequence yields `none`. -/
def resolveSteps (v : Value) : List PathStep → Option Value
  | [] => some v
  | step :: rest =>
      match step, v with
      | PathStep.key k, Value.obj kvs =>
          match objLookup kvs k with
          | some w => resolveSteps w rest
          | none => none
      | PathStep.idx i, Value.list l =>
          match l.get? i with
          | some w => resolveSteps w rest
          | none => none
      | _, _ => none

/-- The two placeholder modifiers, plus the no-modifier case. -/
inductive Modifier where
  | verbatim
  | lc
  | enc
deriving DecidableEq

/-- Chars are collected until one of `stop` is met; returns the
collected run and the unconsumed remainder (stop char included). -/
def takeUntil (stop : List Char) (cs : List Char) : List Char × List Char :=
  match cs with
  | [] => ([], [])
  | c :: rest =>
      if stop.contains c then ([], c :: rest)
      else
        let p := takeUntil stop rest
        (c :: p.1, p.2)

/-- Decimal digits to a natural number. -/
def digitsToNat (cs : List Char) : Nat :=
  cs.foldl (fun acc c => acc * 10 + (c.toNat - 48)) 0

/-- Modelled from the spec: strip a leading `lc:` or `enc:` modifier
from a placeholder's inner text. -/
def parseModifier (cs : List Char) : Modifier × List Char :=
  if cs.take 3 = [ 'l', 'c', ':' ] then (Modifier.lc, cs.drop 3)
  else if cs.take 4 = [ 'e', 'n', 'c', ':' ] then (Modifier.enc, cs.drop 4)
  else (Modifier.verbatim, cs)

/-- Modelled from the spec: parse `scope.segment(.segment|[index])*`
into path steps. `fuel` bounds recursion; callers pass the input length
so it never runs out. -/
def parseStepsAux : Nat → List Char → List PathStep
  | 0, _ => []
  | _, [] => []
  | fuel + 1, c :: rest =>
      if c = '.' then parseStepsAux fuel rest
      else if c = '[' then
        let p := takeUntil [ ']' ] rest
        match p.2 with
        | _ :: rest2 => PathStep.idx (digitsToNat p.1) :: parseStepsAux fuel rest2
        | [] => [ PathStep.idx (digitsToNat p.1) ]
      else
        let p := takeUntil [ '.', '[' ] (c :: rest)
        PathStep.key (String.mk p.1) :: parseStepsAux fuel p.2

/-- Parse a full placeholder path. -/
def parseSteps (cs : List Char) : List PathStep :=
  parseStepsAux (cs.length + 1) cs

/-- The unreserved characters of percent-encoding. -/
def isUnreservedChar (c : Char) : Bool :=
  c.isAlphanum || c = '-' || c = '.' || c = '_' || c = '~'

/-- One hex digit (uppercase). -/
def hexDigitChar (n : Nat) : Char :=
  if n < 10 then Char.ofNat (48 + n) else Char.ofNat (55 + n)

/-- A byte as `%HH`. -/
def byteHex (b : Nat) : List Char :=
  [ '%', hexDigitChar (b / 16), hexDigitChar (b % 16) ]

/-- UTF-8 bytes of a code point. -/
def utf8Bytes (n : Nat) : List Nat :=
  if n < 128 then [n]
  else if n < 2048 then [192 + n / 64, 128 + n % 64]
  else if n < 65536 then [224 + n / 4096, 128 + (n / 64) % 64, 128 + n % 64]
  else [240 + n / 262144, 128 + (n / 4096) % 64, 128 + (n / 64) % 64, 128 + n % 64]

/-- Modelled from the spec: percent-encode one character. -/
def percentEncodeChar (c : Char) : List Char :=
  if isUnreservedChar c then [c]
  else (utf8Bytes c.toNat).foldr (fun b acc => byteHex b ++ acc) []

/-- Modelled from the spec: percent-encode a string for URL embedding. -/
def percentEncode (s : String) : String :=
  String.mk (s.data.foldr (fun c acc => percentEncodeChar c ++ acc) [])

/-- Lowercase a string character by character (ASCII, as `Char.toLower`). -/
def lowerString (s : String) : String :=
  String.mk (s.data.map Char.toLower)

/-- Apply a modifier to a resolved value's string form. -/
def applyModifier : Modifier → String → String
  | Modifier.verbatim, s => s
  | Modifier.lc, s => lowerString s
  | Modifier.enc, s => percentEncode s

/-- Modelled from the spec: substitute one placeholder's inner text
(`[modifier:]scope.path`), with an unresolvable path becoming "". -/
def substPlaceholder (scopes : Value) (inner : List Char) : String :=
  let pm := parseModifier inner
  let base :=
    match resolveSteps scopes (parseSteps pm.2) with
    | some v => valueToString v
    | none => ""
  applyModifier pm.1 base

def lbraceChar : Char := Char.ofNat 123

def rbraceChar : Char := Char.ofNat 125

/-- Modelled from the spec: one left-to-right substitution pass over a
template's characters. `fuel` bounds recursion; `resolve` passes the
input length so it never runs out. -/
def resolveAux (scopes : Value) : Nat → List Char → List Char
  | 0, cs => cs
  | _, [] => []
  | fuel + 1, c :: rest =>
      if c = '$' then
        match rest with
        | c2 :: rest2 =>
            if c2 = lbraceChar then
              match takeUntil [rbraceChar] rest2 with
              | (inner, _ :: rest3) =>
                  (substPlaceholder scopes inner).data ++ resolveAux scopes fuel rest3
              | (_, []) => c :: c2 :: rest2
            else c :: resolveAux scopes fuel rest
        | [] => [c]
      else c :: resolveAux scopes fuel rest

/-- Modelled from the spec: the Expression Resolver.
`resolve template scopes` substitutes every `$\x7b...\x7d` placeholder
against the named scopes; it is a total function. -/
def resolve (template : String) (scopes : Value) : String :=
  String.mk (resolveAux scopes (template.data.length + 1) template.data)

/-- The declared type of a tool parameter. -/
inductive PType where
  | string
  | number
  | boolean
  | enum
deriving DecidableEq

/-- Modelled from the spec: a tool parameter's schema entry. -/
structure ParameterSpec where
  name : String
  type : PType
  required : Bool
  default : Option Value
  allowed_values : List String

/-- Validation failures, per the spec's error taxonomy. -/
inductive ValidationError where
  | missingArgument (name : String)
  | typeMismatch (name expected actual : String)

/-- First value bound to `n` in an argument mapping. -/
def lookupArg (args : List (String × Value)) (n : String) : Option Value :=
  match args.find? (fun p => p.1 == n) with
  | some p => some p.2
  | none => none

/-- Does a present value structurally match the declared type? For
enum, membership in `allowed_values`. -/
def typeMatches (s : ParameterSpec) (v : Value) : Bool :=
  match s.type, v with
  | PType.string, Value.str _ => true
  | PType.number, Value.num _ => true
  | PType.boolean, Value.bool _ => true
  | PType.enum, Value.str x => s.allowed_values.contains x
  | _, _ => false

/-- Printable name of a declared type. -/
def typeName : PType → String
  | PType.string => "string"
  | PType.number => "number"
  | PType.boolean => "boolean"
  | PType.enum => "enum"

/-- Printable name of a value's actual shape. -/
def valueTypeName : Value → String
  | Value.str _ => "string"
  | Value.num _ => "number"
  | Value.bool _ => "boolean"
  | Value.null => "null"
  | Value.list _ => "array"
  | Value.obj _ => "object"

/-- Modelled from the spec: the first required parameter absent from
the arguments, if any. -/
def findMissing (specs : List ParameterSpec) (args : List (String × Value)) :
    Option String :=
  specs.findSome? fun s =>
    if s.required && (lookupArg args s.name).isNone then some s.name else none

/-- Modelled from the spec: the first present argument whose value does
not match its declared type, if any. -/
def findMismatch (specs : List ParameterSpec) (args : List (String × Value)) :
    Option (String × String × String) :=
  specs.findSome? fun s =>
    match lookupArg args s.name with
    | some v =>
        if typeMatches s v then none
        else some (s.name, typeName s.type, valueTypeName v)
    | none => none

/-- The default binding contributed by one spec: its declared default
when the parameter is absent from the arguments and a default exists. -/
def defaultFill (args : List (String × Value)) (s : ParameterSpec) :
    Option (String × Value) :=
  if (lookupArg args s.name).isNone then
    match s.default with
    | some d => some (s.name, d)
    | none => none
  else none

/-- Modelled from the spec: the validated arguments on success —
everything passed in, kept unchanged, plus declared defaults for
absent optional parameters that have one. -/
def fillDefaults (specs : List ParameterSpec) (args : List (String × Value)) :
    List (String × Value) :=
  args ++ specs.filterMap (defaultFill args)

/-- Modelled from the spec: `validate(spec_set, arguments)`. Missing
required arguments are reported first, then type mismatches; on
success the arguments pass through with defaults filled. -/
def validate (specs : List ParameterSpec) (args : List (String × Value)) :
    Except ValidationError (List (String × Value)) :=
  match findMissing specs args with
  | some n => Except.error (ValidationError.missingArgument n)
  | none =>
      match findMismatch specs args with
      | some (n, exp, act) => Except.error (ValidationError.typeMismatch n exp act)
      | none => Except.ok (fillDefaults specs args)

/-- An opaque side-effect instruction: a type tag and a payload. -/
structure Action where
  type : String
  payload : Value

/-- The structured output of a tool invocation (the examples construct
it as `SwaigFunctionResult(text, post_process=...)`). -/
structure SwaigFunctionResult where
  text : String
  actions : List Action
  post_process : Bool

/-- Construction of `SwaigFunctionResult(text)`: fresh result with no
actions. -/
def mkResult (text : String) : SwaigFunctionResult :=
  { text := text, actions := [], post_process := false }

/-- Construction of `SwaigFunctionResult(text, post_process=True)`. -/
def mkResultPost (text : String) : SwaigFunctionResult :=
  { text := text, actions := [], post_process := true }

/-- Method `add_action(type, payload)`: appends one action and returns
the updated result for chaining. -/
def SwaigFunctionResult.add_action (r : SwaigFunctionResult)
    (t : String) (payload : Value) : SwaigFunctionResult :=
  { r with actions := r.actions ++ [ { type := t, payload := payload } ] }

/-- Modelled from the spec: a DataMap tool definition — parameters, a
webhook request template, and an output template. -/
structure DataMapDefinition where
  tool_name : String
  purpose : String
  parameters : List ParameterSpec
  method : String
  url_template : String
  output_template : String

/-- An invocation of one tool. -/
structure InvocationRequest where
  tool_name : String
  arguments : List (String × Value)
  call_context : Value

/-- What the webhook round-trip produced: a network-level failure, or a
status code together with the parse of the body (`none` when the body
is not parseable JSON). -/
inductive HttpOutcome where
  | networkFailure
  | response (status : Nat) (body : Option Value)

/-- The apologetic fallback spoken when the webhook round-trip fails. -/
def fallbackText : String :=
  "I\x27m sorry, I couldn\x27t retrieve that information right now. Please try again later."

/-- The clarification request spoken when a DataMap invocation fails
validation. -/
def clarificationText : String :=
  "I\x27m sorry, I didn\x27t catch everything I need. Could you repeat that?"

/-- Modelled from the spec: the response half of the DataMap engine —
on a 2xx status with a parseable body, resolve the output template
over `args` and `response`; on network failure, non-2xx status, or an
unparseable body, the apologetic fallback with no actions. -/
def webhookPhase (d : DataMapDefinition) (vargs : List (String × Value))
    (outcome : HttpOutcome) : SwaigFunctionResult :=
  match outcome with
  | HttpOutcome.networkFailure => mkResult fallbackText
  | HttpOutcome.response status body =>
      if 200 ≤ status ∧ status < 300 then
        match body with
        | some parsed =>
            mkResult (resolve d.output_template
              (Value.obj [("args", Value.obj vargs), ("response", parsed)]))
        | none => mkResult fallbackText
      else mkResult fallbackText

/-- Modelled from the spec: the DataMap engine. Validates, resolves
the URL template over `args` and `call`, performs the webhook
round-trip (`http` maps the resolved URL to its outcome), and builds
the result via `webhookPhase`; validation failure degrades to a
clarification request. -/
def execute (http : String → HttpOutcome) (d : DataMapDefinition)
    (req : InvocationRequest) : SwaigFunctionResult :=
  match validate d.parameters req.arguments with
  | Except.error _ => mkResult clarificationText
  | Except.ok vargs =>
      webhookPhase d vargs (http (resolve d.url_template
        (Value.obj [("args", Value.obj vargs), ("call", req.call_context)])))

/-- A tool's implementation: a native handler over the validated
arguments and raw call data, or a DataMap definition. -/
inductive Implementation where
  | native (h : List (String × Value) → Value → SwaigFunctionResult)
  | dataMap (d : DataMapDefinition)

/-- Modelled from the spec: a registered tool. -/
structure ToolSpec where
  name : String
  description : String
  parameters : List ParameterSpec
  filler_phrases : List String
  implementation : Implementation

/-- The wire envelope returned for one invocation: a success response
(spoken text plus ordered actions) or an error with a code. -/
inductive WireEnvelope where
  | success (text : String) (actions : List Action)
  | error (code : String) (detail : String)

/-- The wire error code of a validation failure. -/
def errorCode : ValidationError → String
  | ValidationError.missingArgument _ => "missing_argument"
  | ValidationError.typeMismatch _ _ _ => "type_mismatch"

/-- The wire error detail of a validation failure. -/
def errorDetail : ValidationError → String
  | ValidationError.missingArgument n => n
  | ValidationError.typeMismatch n _ _ => n

/-- Serialization of a function result to the wire envelope: the
spoken text and the actions, in order. -/
def serializeResult (r : SwaigFunctionResult) : WireEnvelope :=
  WireEnvelope.success r.text r.actions

/-- Modelled from the spec: the function dispatcher for one resolved
tool. Validates the arguments; on failure returns the wire error
envelope without touching the implementation, otherwise runs the
native handler or delegates to the DataMap engine. -/
def dispatch (http : String → HttpOutcome) (tool : ToolSpec)
    (req : InvocationRequest) : WireEnvelope :=
  match validate tool.parameters req.arguments with
  | Except.error e => WireEnvelope.error (errorCode e) (errorDetail e)
  | Except.ok vargs =>
      match tool.implementation with
      | Implementation.native h => serializeResult (h vargs req.call_context)
      | Implementation.dataMap d => serializeResult (execute http d req)

/-- Modelled from the spec: register an agent under a path prefix;
exact collisions are rejected. `α` stands for the registered agent. -/
def registerAgent {α : Type} (regs : List (String × α)) (base : String)
    (agent : α) : Except String (List (String × α)) :=
  if regs.any (fun r => r.1 == base) then Except.error "duplicate path registration"
  else Except.ok (regs ++ [(base, agent)])

/-- Of two registrations, keep the one with the longer path prefix. -/
def pickLonger {α : Type} :
    Option (String × α) → (String × α) → Option (String × α)
  | none, r => some r
  | some b, r => if b.1.length < r.1.length then some r else some b

/-- Tests whether `path` begins with `pre`, character by character. -/
def strStartsWith (path pre : String) : Bool :=
  pre.data.isPrefixOf path.data

/-- Modelled from the spec: longest-prefix routing. Among registered
entries whose path prefix begins the request path, the longest wins;
no match yields `none`. -/
def route {α : Type} (regs : List (String × α)) (path : String) : Option α :=
  (((regs.filter (fun r => strStartsWith path r.1)).foldl pickLonger none)).map Prod.snd

/-- A server-level response: a matched agent, a static file, or 404. -/
inductive ServerResponse (α : Type) where
  | agent (a : α)
  | staticFile (f : String)
  | notFound

/-- Modelled from the spec: server dispatch — route to an agent, else
try the static responder, else 404. -/
def serverRespond {α : Type} (regs : List (String × α))
    (staticF : String → Option String) (path : String) : ServerResponse α :=
  match route regs path with
  | some a => ServerResponse.agent a
  | none =>
      match staticF path with
      | some f => ServerResponse.staticFile f
      | none => ServerResponse.notFound

/-! ### Example-level handlers, translated from the repository sources. -/

/-- One FAQ entry (`faq-bot.py`, `FAQS`). -/
structure FaqEntry where
  question : String
  answer : String

/-- The FAQ knowledge base of `faq-bot.py`. -/
def FAQS : List (String × FaqEntry) :=
  [ ("hours",
     { question := "What are your hours?",
       answer := "We\x27re open Monday through Friday, 9 AM to 5 PM Eastern Time. We\x27re closed on weekends and major holidays." }),
    ("returns",
     { question := "What is your return policy?",
       answer := "You can return any item within 30 days of purchase for a full refund. Items must be in original condition with tags attached. We\x27ll provide a prepaid shipping label." }),
    ("shipping",
     { question := "How long does shipping take?",
       answer := "Standard shipping takes 5-7 business days. Express shipping takes 2-3 business days. Free shipping on orders over $50." }),
    ("payment",
     { question := "What payment methods do you accept?",
       answer := "We accept all major credit cards including Visa, Mastercard, American Express, and Discover. We also accept PayPal and Apple Pay." }),
    ("warranty",
     { question := "Do your products have a warranty?",
       answer := "All our products come with a 1-year manufacturer\x27s warranty. Electronics have an extended 2-year warranty. Contact support for warranty claims." }),
    ("contact",
     { question := "How can I contact customer service?",
       answer := "You can reach us by phone at 1-800-555-0123, by email at support@example.com, or through live chat on our website. Phone support is available during business hours." }) ]

/-- The enum declared on `lookup_faq`'s `topic` parameter. -/
def lookupFaqTopics : List String :=
  ["hours", "returns", "shipping", "payment", "warranty", "contact"]

/-- Lookup `FAQS.get(topic)`. -/
def faqAnswer (topic : String) : Option String :=
  match FAQS.find? (fun p => p.1 == topic) with
  | some p => some p.2.answer
  | none => none

/-- The fallback text of `lookup_faq` when the topic is unknown. -/
def faqNotFoundText : String :=
  "I don\x27t have information about that topic. Would you like me to transfer you to a customer service representative?"

/-- Handler `lookup_faq` of `faq-bot.py`: lowercases the topic
argument (empty when absent or non-string) and looks it up in `FAQS`,
with a transfer offer as fallback. -/
def lookup_faq (args : List (String × Value)) : SwaigFunctionResult :=
  let topic :=
    match lookupArg args "topic" with
    | some (Value.str s) => lowerString s
    | _ => ""
  match faqAnswer topic with
  | some ans => mkResult ans
  | none => mkResult faqNotFoundText

/-- The identity-verification prompt of `get_balance`. -/
def verificationPromptText : String :=
  "For security, I need to verify your identity first. Can you please provide the last four digits of your Social Security number?"

/-- Python truthiness of a value, as `if not verified` tests it. -/
def truthy : Value → Bool
  | Value.null => false
  | Value.bool b => b
  | Value.num n => !(n == 0)
  | Value.str s => !(s == "")
  | Value.list l => !l.isEmpty
  | Value.obj kvs => !kvs.isEmpty

/-- Reads the verified flag as the example does: the vars object of
the raw call data, then its verified key, defaulting to False. -/
def varsVerified (raw_data : Value) : Value :=
  match (valueGet raw_data "vars").bind (fun v => valueGet v "verified") with
  | some v => v
  | none => Value.bool false

/-- Handler `get_balance` of `multi-agent-server.py` (BillingAgent):
before verification it returns the identity prompt; once verified it
speaks the balance for the given account. -/
def get_balance (args : List (String × Value)) (raw_data : Value) :
    SwaigFunctionResult :=
  let account :=
    match lookupArg args "account_number" with
    | some v => valueToString v
    | none => "None"
  if truthy (varsVerified raw_data) then
    mkResult ("Your current balance for account " ++ account ++
      " is $156.78. Your next payment is due on the 15th. Would you like to make a payment today?")
  else
    mkResult verificationPromptText

/-- Handler of `lookup_order` in `serverless-agent.py`: speaks the
shipping status for the given order number (empty when absent). -/
def lookup_order_handler (vargs : List (String × Value)) (_ : Value) :
    SwaigFunctionResult :=
  let order_num :=
    match lookupArg vargs "order_number" with
    | some v => valueToString v
    | none => ""
  mkResult ("Order " ++ order_num ++ " was shipped on Monday and will arrive by Friday.")

/-- The `lookup_order` tool of `serverless-agent.py`, whose schema
declares `order_number` as a required string. -/
def lookup_order_tool : ToolSpec :=
  { name := "lookup_order",
    description := "Look up an order by order number",
    parameters :=
      [ { name := "order_number", type := PType.string, required := true,
          default := none, allowed_values := [] } ],
    filler_phrases := ["Let me check that order for you", "One moment please"],
    implementation := Implementation.native lookup_order_handler }

/-- The enum parameter of `lookup_faq` in `faq-bot.py`. -/
def topicParam : ParameterSpec :=
  { name := "topic", type := PType.enum, required := false,
    default := none, allowed_values := lookupFaqTopics }

/-- The `get_weather` DataMap of `datamap-agent.py`. -/
def weather_map : DataMapDefinition :=
  { tool_name := "get_weather",
    purpose := "Get current weather for a city",
    parameters :=
      [ { name := "city", type := PType.string, required := true,
          default := none, allowed_values := [] } ],
    method := "GET",
    url_template := "https://wttr.in/$\x7blc:args.city\x7d?format=j1",
    output_template := "The weather in $\x7bargs.city\x7d is currently $\x7bresponse.current_condition[0].temp_F\x7d degrees Fahrenheit with $\x7bresponse.current_condition[0].weatherDesc[0].value\x7d. Humidity is $\x7bresponse.current_condition[0].humidity\x7d%." }

end Signalwire

namespace Signalwire

/-- C5: each add_action call appends exactly one Action, keeps the
rest of the result unchanged, and the serialized wire envelope lists a
built result's actions in exactly the call order. -/
theorem add_action_appends_in_order :
    ∀ (r : SwaigFunctionResult) (t : String) (p : Value)
      (calls : List (String × Value)),
      (r.add_action t p).actions = r.actions ++ [⟨t, p⟩] ∧
      (r.add_action t p).text = r.text ∧
      (r.add_action t p).post_process = r.post_process ∧
      serializeResult (calls.foldl (fun acc c => acc.add_action c.1 c.2) r) =
        WireEnvelope.success r.text
          (r.actions ++ calls.map (fun c => ⟨c.1, c.2⟩)) := by
  intro r t p calls
  refine ⟨rfl, rfl, rfl, ?_⟩
  induction calls generalizing r with
  | nil => simp [serializeResult]
  | cons c cs ih =>
      simp only [List.foldl_cons, List.map_cons]
      rw [ih]
      simp [SwaigFunctionResult.add_action]

/-- C10: while the call's vars.verified is absent or false, the result
of get_balance is the fixed identity-verification prompt, independent
of the account_number argument. -/
theorem get_balance_preverification_constant :
    ∀ (args1 args2 : List (String × Value)) (raw : Value),
      ((valueGet raw "vars").bind (fun v => valueGet v "verified") = none ∨
       (valueGet raw "vars").bind (fun v => valueGet v "verified") =
         some (Value.bool false)) →
      get_balance args1 raw = get_balance args2 raw ∧
      get_balance args1 raw = mkResult verificationPromptText := by
  intro a1 a2 raw h
  have hv : truthy (varsVerified raw) = false := by
    rcases h with h | h <;> simp [varsVerified, h, truthy]
  constructor <;> simp [get_balance, hv]

/-- Witness for the pre-verification constancy of get_balance, at two
argument maps differing only in the account number. -/
theorem get_balance_preverification_constant_witness :
    get_balance [("account_number", Value.str "12345")] (Value.obj []) =
      get_balance [("account_number", Value.str "99999")] (Value.obj []) ∧
    get_balance [("account_number", Value.str "12345")] (Value.obj []) =
      mkResult verificationPromptText :=
  get_balance_preverification_constant _ _ _ (Or.inl rfl)

end Signalwire

namespace Signalwire

theorem applyModifier_empty : ∀ m : Modifier, applyModifier m "" = "" := by
  intro m
  cases m <;> rfl

/-- C2: resolution is total with silent local failure — a missing
mapping key, an out-of-range index, or an index step into a
non-sequence makes the path unresolvable, and an unresolvable
placeholder substitutes the empty string. -/
theorem resolve_unresolved_empty :
    (∀ (kvs : List (String × Value)) (k : String) (rest : List PathStep),
        objLookup kvs k = none →
        resolveSteps (Value.obj kvs) (PathStep.key k :: rest) = none) ∧
    (∀ (l : List Value) (i : Nat) (rest : List PathStep),
        l.length ≤ i →
        resolveSteps (Value.list l) (PathStep.idx i :: rest) = none) ∧
    (∀ (v : Value) (i : Nat) (rest : List PathStep),
        (∀ l, v ≠ Value.list l) →
        resolveSteps v (PathStep.idx i :: rest) = none) ∧
    (∀ (scopes : Value) (inner : List Char),
        resolveSteps scopes (parseSteps (parseModifier inner).2) = none →
        substPlaceholder scopes inner = "") ∧
    resolve "$\x7bargs.missing\x7d" (Value.obj [("args", Value.obj [])]) = "" := by
  refine ⟨?_, ?_, ?_, ?_, by decide⟩
  · intro kvs k rest h
    simp [resolveSteps, h]
  · intro l i rest h
    have hg : l[i]? = none := List.getElem?_eq_none h
    simp [resolveSteps, hg]
  · intro v i rest h
    cases v with
    | list l => exact absurd rfl (h l)
    | str s => simp [resolveSteps]
    | num n => simp [resolveSteps]
    | bool b => simp [resolveSteps]
    | null => simp [resolveSteps]
    | obj kvs => simp [resolveSteps]
  · intro scopes inner h
    simp only [substPlaceholder, h]
    exact applyModifier_empty _

/-- Witness for silent failure resolution, at a one-step path into an
empty object under each modifier shape. -/
theorem resolve_unresolved_empty_witness :
    resolveSteps (Value.obj []) [PathStep.key "x"] = none ∧
    substPlaceholder (Value.obj []) [ 'x' ] = "" :=
  ⟨resolve_unresolved_empty.1 [] "x" [] rfl,
   resolve_unresolved_empty.2.2.2.1 (Value.obj []) [ 'x' ] rfl⟩

end Signalwire

namespace Signalwire

/-- C4: for a resolvable placeholder value, the lc modifier
substitutes the lowercase of its string conversion, the enc modifier
substitutes its percent-encoding (space becomes %20), and the
modifier-free form substitutes the verbatim string conversion;
including the spec's two concrete template examples. -/
theorem modifier_semantics :
    (∀ (scopes : Value) (path : List Char) (v : Value),
        resolveSteps scopes (parseSteps path) = some v →
        substPlaceholder scopes ([ 'l', 'c', ':' ] ++ path) =
          lowerString (valueToString v)) ∧
    (∀ (scopes : Value) (path : List Char) (v : Value),
        resolveSteps scopes (parseSteps path) = some v →
        substPlaceholder scopes ([ 'e', 'n', 'c', ':' ] ++ path) =
          percentEncode (valueToString v)) ∧
    (∀ (scopes : Value) (path : List Char) (v : Value),
        parseModifier path = (Modifier.verbatim, path) →
        resolveSteps scopes (parseSteps path) = some v →
        substPlaceholder scopes path = valueToString v) ∧
    percentEncode "a b" = "a%20b" ∧
    resolve "$\x7blc:args.city\x7d"
      (Value.obj [("args", Value.obj [("city", Value.str "Rome")])]) = "rome" ∧
    resolve "$\x7benc:args.q\x7d"
      (Value.obj [("args", Value.obj [("q", Value.str "a b")])]) = "a%20b" := by
  refine ⟨?_, ?_, ?_, by decide, by decide, by decide⟩
  · intro scopes path v h
    have hm : parseModifier ('l' :: 'c' :: ':' :: path) = (Modifier.lc, path) := by
      simp [parseModifier, List.take]
    show substPlaceholder scopes ('l' :: 'c' :: ':' :: path) = _
    simp [substPlaceholder, hm, h, applyModifier]
  · intro scopes path v h
    have hm : parseModifier ('e' :: 'n' :: 'c' :: ':' :: path) = (Modifier.enc, path) := by
      simp [parseModifier, List.take]
    show substPlaceholder scopes ('e' :: 'n' :: 'c' :: ':' :: path) = _
    simp [substPlaceholder, hm, h, applyModifier]
  · intro scopes path v hm h
    simp [substPlaceholder, hm, h, applyModifier]

/-- Witness for the modifier semantics at the args.city path over a
concrete scope. -/
theorem modifier_semantics_witness :
    substPlaceholder (Value.obj [("args", Value.obj [("city", Value.str "Rome")])])
      ([ 'l', 'c', ':' ] ++ [ 'a', 'r', 'g', 's', '.', 'c', 'i', 't', 'y' ]) =
      lowerString (valueToString (Value.str "Rome")) :=
  modifier_semantics.1 _ _ (Value.str "Rome") rfl

end Signalwire

namespace Signalwire

/-- C7: for an enum parameter present in the arguments, validation
succeeds exactly when the value is a string inside allowed_values, and
otherwise fails with a TypeMismatch for that parameter. -/
theorem enum_validation_iff :
    ∀ (s : ParameterSpec) (args : List (String × Value)) (v : Value),
      s.type = PType.enum → lookupArg args s.name = some v →
      ((∃ x, v = Value.str x ∧ x ∈ s.allowed_values) →
        validate [s] args = Except.ok (fillDefaults [s] args)) ∧
      ((∀ x, v = Value.str x → x ∉ s.allowed_values) →
        validate [s] args = Except.error
          (ValidationError.typeMismatch s.name (typeName s.type) (valueTypeName v))) := by
  intro s args v htype hfound
  have hmiss : findMissing [s] args = none := by
    simp [findMissing, List.findSome?, hfound]
  constructor
  · rintro ⟨x, rfl, hx⟩
    have hmatch : typeMatches s (Value.str x) = true := by
      simp [typeMatches, htype, hx]
    simp [validate, hmiss, findMismatch, List.findSome?, hfound, hmatch]
  · intro hout
    have hmatch : typeMatches s v = false := by
      cases v with
      | str x =>
          have := hout x rfl
          simp [typeMatches, htype, this]
      | num n => simp [typeMatches, htype]
      | bool b => simp [typeMatches, htype]
      | null => simp [typeMatches, htype]
      | list l => simp [typeMatches, htype]
      | obj kvs => simp [typeMatches, htype]
    simp [validate, hmiss, findMismatch, List.findSome?, hfound, hmatch]

/-- Witness for enum validation on the topic parameter of lookup_faq:
an allowed value passes, a value outside the enum is a type mismatch. -/
theorem enum_validation_iff_witness :
    validate [topicParam] [("topic", Value.str "hours")] =
      Except.ok (fillDefaults [topicParam] [("topic", Value.str "hours")]) ∧
    validate [topicParam] [("topic", Value.str "weather")] =
      Except.error (ValidationError.typeMismatch "topic" (typeName PType.enum)
        (valueTypeName (Value.str "weather"))) :=
  ⟨(enum_validation_iff topicParam [("topic", Value.str "hours")]
        (Value.str "hours") rfl rfl).1 ⟨"hours", rfl, by decide⟩,
   (enum_validation_iff topicParam [("topic", Value.str "weather")]
        (Value.str "weather") rfl rfl).2
      (by rintro x hx hm; cases hx; revert hm; decide)⟩

end Signalwire

namespace Signalwire

/-- Describes a failed webhook round-trip: network failure, non-2xx
status, or unparseable body. -/
def failedOutcome : HttpOutcome → Prop
  | HttpOutcome.networkFailure => True
  | HttpOutcome.response status body =>
      status < 200 ∨ 300 ≤ status ∨ body = none

theorem webhookPhase_failed (d : DataMapDefinition)
    (vargs : List (String × Value)) (o : HttpOutcome)
    (h : failedOutcome o) : webhookPhase d vargs o = mkResult fallbackText := by
  cases o with
  | networkFailure => rfl
  | response status body =>
      simp only [failedOutcome] at h
      by_cases h2xx : 200 ≤ status ∧ status < 300
      · have hb : body = none := by
          rcases h with hs | hs | hb
          · omega
          · omega
          · exact hb
        subst hb
        simp [webhookPhase, if_pos h2xx]
      · simp [webhookPhase, if_neg h2xx]

/-- C3: when the webhook round-trip fails (network failure, non-2xx
status, or a body that is not parseable JSON), execute returns a
result with non-empty fallback text and no actions; it is a total
function, so it never raises. -/
theorem execute_webhook_failure_fallback :
    ∀ (http : String → HttpOutcome) (d : DataMapDefinition)
      (req : InvocationRequest),
      (∀ url, failedOutcome (http url)) →
      (execute http d req).text ≠ "" ∧ (execute http d req).actions = [] := by
  intro http d req h
  have key : execute http d req = mkResult clarificationText ∨
      execute http d req = mkResult fallbackText := by
    unfold execute
    cases hv : validate d.parameters req.arguments with
    | error e => exact Or.inl rfl
    | ok vargs => exact Or.inr (webhookPhase_failed d vargs _ (h _))
  rcases key with hk | hk <;> rw [hk] <;> exact ⟨by decide, rfl⟩

/-- Witness for the DataMap fallback: the weather DataMap against a
webhook that always answers HTTP 500 with an unparseable body. -/
theorem execute_webhook_failure_fallback_witness :
    (execute (fun _ => HttpOutcome.response 500 none) weather_map
      { tool_name := "get_weather",
        arguments := [("city", Value.str "Rome")],
        call_context := Value.obj [] }).text ≠ "" ∧
    (execute (fun _ => HttpOutcome.response 500 none) weather_map
      { tool_name := "get_weather",
        arguments := [("city", Value.str "Rome")],
        call_context := Value.obj [] }).actions = [] :=
  execute_webhook_failure_fallback _ _ _
    (fun _ => Or.inr (Or.inr rfl))

end Signalwire

namespace Signalwire

theorem findSome_isSome_of_mem {α β : Type} {l : List α} {f : α → Option β}
    {a : α} (ha : a ∈ l) (hf : (f a).isSome) : (l.findSome? f).isSome := by
  induction l with
  | nil => cases ha
  | cons x xs ih =>
      rw [List.findSome?_cons]
      cases hx : f x with
      | some b => rfl
      | none =>
          rcases List.mem_cons.mp ha with rfl | hm
          · rw [hx] at hf
            cases hf
          · exact ih hm

/-- C1: dispatching a request that lacks a required parameter returns
a missing_argument error envelope, and the result does not depend on
the tool's implementation or on the webhook transport — the handler is
never invoked. -/
theorem dispatch_missing_required :
    ∀ (http : String → HttpOutcome) (tool : ToolSpec)
      (req : InvocationRequest) (p : ParameterSpec),
      p ∈ tool.parameters → p.required = true →
      lookupArg req.arguments p.name = none →
      (∃ n, dispatch http tool req = WireEnvelope.error "missing_argument" n) ∧
      (∀ (http2 : String → HttpOutcome) (impl : Implementation),
          dispatch http2 { tool with implementation := impl } req =
            dispatch http tool req) := by
  intro http tool req p hp hreq habs
  have hsome : (findMissing tool.parameters req.arguments).isSome := by
    apply findSome_isSome_of_mem hp
    simp [hreq, habs]
  obtain ⟨n, hn⟩ := Option.isSome_iff_exists.mp hsome
  have hv : validate tool.parameters req.arguments =
      Except.error (ValidationError.missingArgument n) := by
    simp [validate, hn]
  constructor
  · exact ⟨n, by simp [dispatch, hv, errorCode, errorDetail]⟩
  · intro http2 impl
    simp [dispatch, hv]

/-- Witness for the missing-argument dispatch error: the lookup_order
tool of the serverless agent invoked with no arguments. -/
theorem dispatch_missing_required_witness :
    ∃ n, dispatch (fun _ => HttpOutcome.networkFailure) lookup_order_tool
      { tool_name := "lookup_order", arguments := [],
        call_context := Value.obj [] } =
      WireEnvelope.error "missing_argument" n :=
  (dispatch_missing_required (fun _ => HttpOutcome.networkFailure)
    lookup_order_tool
    { tool_name := "lookup_order", arguments := [], call_context := Value.obj [] }
    { name := "order_number", type := PType.string, required := true,
      default := none, allowed_values := [] }
    (List.Mem.head _) rfl rfl).1

end Signalwire

namespace Signalwire

theorem pickLonger_some {α : Type} (acc : Option (String × α)) (x : String × α) :
    ∃ y, pickLonger acc x = some y ∧
      x.1.length ≤ y.1.length ∧
      (∀ b, acc = some b → b.1.length ≤ y.1.length) ∧
      (acc = some y ∨ y = x) := by
  cases acc with
  | none => exact ⟨x, rfl, le_refl _, by simp, Or.inr rfl⟩
  | some b =>
      by_cases hlen : b.1.length < x.1.length
      · refine ⟨x, ?_, le_refl _, ?_, Or.inr rfl⟩
        · simp [pickLonger, hlen]
        · intro c hc
          cases hc
          omega
      · refine ⟨b, ?_, by omega, ?_, Or.inl rfl⟩
        · simp [pickLonger, hlen]
        · intro c hc
          cases hc
          omega

theorem foldl_pickLonger_spec {α : Type} (l : List (String × α)) :
    ∀ (acc : Option (String × α)) (r : String × α),
      l.foldl pickLonger acc = some r →
      (acc = some r ∨ r ∈ l) ∧
      (∀ c ∈ l, c.1.length ≤ r.1.length) ∧
      (∀ b, acc = some b → b.1.length ≤ r.1.length) := by
  induction l with
  | nil =>
      intro acc r h
      rw [List.foldl_nil] at h
      refine ⟨Or.inl h, by simp, ?_⟩
      intro b hb
      rw [h] at hb
      cases hb
      omega
  | cons x xs ih =>
      intro acc r h
      rw [List.foldl_cons] at h
      obtain ⟨hmem, hmax, hacc⟩ := ih (pickLonger acc x) r h
      obtain ⟨y, hy, hxy, hby, hcase⟩ := pickLonger_some acc x
      have hyr : y.1.length ≤ r.1.length := hacc y hy
      refine ⟨?_, ?_, ?_⟩
      · rcases hmem with hm | hm
        · rw [hy] at hm
          cases hm
          rcases hcase with hc | hc
          · exact Or.inl hc
          · exact Or.inr (hc ▸ List.Mem.head _)
        · exact Or.inr (List.Mem.tail _ hm)
      · intro c hc
        rcases List.mem_cons.mp hc with rfl | hm
        · omega
        · exact hmax c hm
      · intro b hb
        have := hby b hb
        omega

/-- C6: routing performs longest-prefix match — a routed agent is
registered under a prefix of the path no shorter than any other
matching registration — and an unmatched path falls through to the
static responder and then 404, never to an agent; concretely,
/support/anything selects the /support agent and /unknown is a 404. -/
theorem route_longest_and_fallthrough :
    (∀ (α : Type) (regs : List (String × α)) (path : String) (a : α),
        route regs path = some a →
        ∃ pre, (pre, a) ∈ regs ∧ strStartsWith path pre = true ∧
          ∀ q ∈ regs, strStartsWith path q.1 = true →
            q.1.length ≤ pre.length) ∧
    (∀ (α : Type) (regs : List (String × α))
        (staticF : String → Option String) (path : String),
        route regs path = none →
        serverRespond regs staticF path =
          (match staticF path with
           | some f => ServerResponse.staticFile f
           | none => ServerResponse.notFound)) ∧
    route [("/support", 0), ("/sales", 1)] "/support/anything" = some 0 ∧
    route [("/support", 0), ("/sales", 1)] "/unknown" = (none : Option Nat) ∧
    serverRespond [("/support", 0), ("/sales", 1)] (fun _ => none) "/unknown" =
      ServerResponse.notFound := by
  refine ⟨?_, ?_, by decide, by decide, by rfl⟩
  · intro α regs path a h
    unfold route at h
    obtain ⟨rr, hrr, hra⟩ := Option.map_eq_some'.mp h
    obtain ⟨pre, b⟩ := rr
    cases hra
    obtain ⟨hmem, hmax, _⟩ :=
      foldl_pickLonger_spec (regs.filter (fun r => strStartsWith path r.1))
        none _ hrr
    rcases hmem with hm | hm
    · cases hm
    · have hmem' := List.mem_filter.mp hm
      refine ⟨pre, hmem'.1, hmem'.2, ?_⟩
      intro q hq hsw
      exact hmax q (List.mem_filter.mpr ⟨hq, hsw⟩)
  · intro α regs staticF path h
    simp [serverRespond, h]

/-- Witness for longest-prefix routing at the registered prefixes of
the multi-agent server example. -/
theorem route_longest_and_fallthrough_witness :
    ∃ pre, (pre, 0) ∈ [("/support", 0), ("/sales", 1)] ∧
      strStartsWith "/support/anything" pre = true ∧
      ∀ q ∈ [("/support", 0), ("/sales", 1)],
        strStartsWith "/support/anything" q.1 = true →
          q.1.length ≤ pre.length :=
  route_longest_and_fallthrough.1 Nat [("/support", 0), ("/sales", 1)]
    "/support/anything" 0 (by decide)

end Signalwire

namespace Signalwire

theorem lookupArg_cons (x : String × Value) (xs : List (String × Value))
    (n : String) :
    lookupArg (x :: xs) n = if x.1 == n then some x.2 else lookupArg xs n := by
  simp only [lookupArg, List.find?_cons]
  cases hx : (x.1 == n) with
  | true => rfl
  | false => rfl

theorem lookupArg_append (a b : List (String × Value)) (n : String) :
    lookupArg (a ++ b) n =
      match lookupArg a n with
      | some v => some v
      | none => lookupArg b n := by
  induction a with
  | nil => rfl
  | cons x xs ih =>
      rw [List.cons_append, lookupArg_cons, lookupArg_cons]
      cases hx : (x.1 == n) with
      | true => rfl
      | false => simpa using ih

theorem defaultFill_name (args : List (String × Value)) (s : ParameterSpec)
    (x : String × Value) (h : defaultFill args s = some x) : x.1 = s.name := by
  unfold defaultFill at h
  by_cases h1 : (lookupArg args s.name).isNone
  · rw [if_pos h1] at h
    cases hd : s.default with
    | some d =>
        rw [hd] at h
        cases h
        rfl
    | none =>
        rw [hd] at h
        cases h
  · rw [if_neg h1] at h
    cases h

theorem lookupArg_defaults_not_declared (specs : List ParameterSpec)
    (args : List (String × Value)) (n : String)
    (h : ∀ s ∈ specs, s.name ≠ n) :
    lookupArg (specs.filterMap (defaultFill args)) n = none := by
  induction specs with
  | nil => rfl
  | cons t ts ih =>
      rw [List.filterMap_cons]
      cases hd : defaultFill args t with
      | none => exact ih (fun s hs => h s (List.Mem.tail _ hs))
      | some x =>
          rw [lookupArg_cons]
          have hxn : (x.1 == n) = false := by
            rw [defaultFill_name args t x hd]
            exact beq_eq_false_iff_ne.mpr (h t (List.Mem.head _))
          rw [hxn]
          simp only [Bool.false_eq_true, if_false]
          exact ih (fun s hs => h s (List.Mem.tail _ hs))

theorem lookupArg_defaults_of_absent (specs : List ParameterSpec)
    (args : List (String × Value)) (s : ParameterSpec)
    (hnd : (specs.map (fun t => t.name)).Nodup) (hs : s ∈ specs)
    (habs : lookupArg args s.name = none) :
    lookupArg (specs.filterMap (defaultFill args)) s.name = s.default := by
  induction specs with
  | nil => cases hs
  | cons t ts ih =>
      rw [List.map_cons, List.nodup_cons] at hnd
      rcases List.mem_cons.mp hs with rfl | hm
      · rw [List.filterMap_cons]
        cases hd : defaultFill args s with
        | none =>
            have hdef : s.default = none := by
              unfold defaultFill at hd
              rw [habs] at hd
              cases hdf : s.default with
              | some d =>
                  rw [hdf] at hd
                  simp at hd
              | none => rfl
            rw [hdef]
            exact lookupArg_defaults_not_declared ts args s.name
              (fun u hu hc => hnd.1 (hc ▸ List.mem_map_of_mem (fun w => w.name) hu))
        | some x =>
            obtain ⟨d, hdf, hx⟩ : ∃ d, s.default = some d ∧ x = (s.name, d) := by
              unfold defaultFill at hd
              rw [habs] at hd
              cases hdf : s.default with
              | some d =>
                  rw [hdf] at hd
                  simp at hd
                  exact ⟨d, rfl, hd.symm⟩
              | none =>
                  rw [hdf] at hd
                  simp at hd
            subst hx
            rw [lookupArg_cons]
            simp [hdf]
      · rw [List.filterMap_cons]
        cases hd : defaultFill args t with
        | none => exact ih hnd.2 hm
        | some x =>
            rw [lookupArg_cons]
            have hxn : (x.1 == s.name) = false := by
              rw [defaultFill_name args t x hd]
              apply beq_eq_false_iff_ne.mpr
              intro hc
              exact hnd.1 (hc ▸ List.mem_map_of_mem (fun w => w.name) hm)
            rw [hxn]
            simp only [Bool.false_eq_true, if_false]
            exact ih hnd.2 hm

/-- C8: on successful validation, arguments not declared in the spec
set appear unchanged in the validated arguments, and every declared
parameter absent from the input is bound to its declared default when
one exists and is otherwise absent (parameter names being unique
within one tool, per the data-model invariant). -/
theorem validate_passthrough_and_defaults :
    ∀ (specs : List ParameterSpec) (args out : List (String × Value)),
      (specs.map (fun s => s.name)).Nodup →
      validate specs args = Except.ok out →
      (∀ n, (∀ s ∈ specs, s.name ≠ n) → lookupArg out n = lookupArg args n) ∧
      (∀ s ∈ specs, lookupArg args s.name = none →
        lookupArg out s.name = s.default) := by
  intro specs args out hnd hv
  have hout : out = fillDefaults specs args := by
    unfold validate at hv
    cases h1 : findMissing specs args with
    | some n => rw [h1] at hv; cases hv
    | none =>
        rw [h1] at hv
        cases h2 : findMismatch specs args with
        | some m =>
            rw [h2] at hv
            obtain ⟨mn, me, ma⟩ := m
            cases hv
        | none =>
            rw [h2] at hv
            cases hv
            rfl
  subst hout
  constructor
  · intro n hn
    unfold fillDefaults
    rw [lookupArg_append]
    cases hl : lookupArg args n with
    | some v => rfl
    | none =>
        simp only []
        exact lookupArg_defaults_not_declared specs args n hn
  · intro s hs habs
    unfold fillDefaults
    rw [lookupArg_append, habs]
    exact lookupArg_defaults_of_absent specs args s hnd hs habs

/-- Witness for argument passthrough and default filling: the
transfer_to_human parameter set of the FAQ bot, with an undeclared
extra argument and the reason parameter absent. -/
theorem validate_passthrough_and_defaults_witness :
    lookupArg (fillDefaults
      [ { name := "reason", type := PType.string, required := false,
          default := some (Value.str "Customer requested human assistance"),
          allowed_values := [] } ]
      [("extra", Value.num 7)]) "extra" =
      lookupArg [("extra", Value.num 7)] "extra" ∧
    lookupArg (fillDefaults
      [ { name := "reason", type := PType.string, required := false,
          default := some (Value.str "Customer requested human assistance"),
          allowed_values := [] } ]
      [("extra", Value.num 7)]) "reason" =
      some (Value.str "Customer requested human assistance") := by
  have h := validate_passthrough_and_defaults
    [ { name := "reason", type := PType.string, required := false,
        default := some (Value.str "Customer requested human assistance"),
        allowed_values := [] } ]
    [("extra", Value.num 7)]
    (fillDefaults
      [ { name := "reason", type := PType.string, required := false,
          default := some (Value.str "Customer requested human assistance"),
          allowed_values := [] } ]
      [("extra", Value.num 7)])
    (by simp) rfl
  refine ⟨h.1 "extra" ?_, h.2 _ (List.Mem.head _) rfl⟩
  intro s hs
  rcases List.mem_cons.mp hs with rfl | hm
  · decide
  · cases hm

end Signalwire

namespace Signalwire

/-- C9: when the topic argument is one of the six declared enum
values, lookup_faq returns the corresponding FAQ answer; the not-found
fallback branch is unreachable, because every allowed value is a key
of FAQS whose answer differs from the fallback text. -/
theorem lookup_faq_enum_total :
    ∀ (args : List (String × Value)) (t : String),
      lookupArg args "topic" = some (Value.str t) → t ∈ lookupFaqTopics →
      (faqAnswer t).isSome ∧
      lookup_faq args = mkResult ((faqAnswer t).getD faqNotFoundText) ∧
      (faqAnswer t).getD faqNotFoundText ≠ faqNotFoundText := by
  intro args t hfound ht
  have hlower : lowerString t = t ∧ (faqAnswer t).isSome ∧
      (faqAnswer t).getD faqNotFoundText ≠ faqNotFoundText := by
    simp only [lookupFaqTopics, List.mem_cons, List.not_mem_nil, or_false] at ht
    rcases ht with rfl | rfl | rfl | rfl | rfl | rfl <;>
      exact ⟨by decide, by decide, by decide⟩
  refine ⟨hlower.2.1, ?_, hlower.2.2⟩
  obtain ⟨ans, hans⟩ := Option.isSome_iff_exists.mp hlower.2.1
  simp [lookup_faq, hfound, hlower.1, hans]

/-- Witness for FAQ totality over the enum: the hours topic. -/
theorem lookup_faq_enum_total_witness :
    (faqAnswer "hours").isSome ∧
    lookup_faq [("topic", Value.str "hours")] =
      mkResult ((faqAnswer "hours").getD faqNotFoundText) ∧
    (faqAnswer "hours").getD faqNotFoundText ≠ faqNotFoundText :=
  lookup_faq_enum_total [("topic", Value.str "hours")] "hours" rfl
    (List.Mem.head _)

end Signalwire
